import Mathlib

/-!
Verification development for the browsary-openai-provider orchestration core.

The definitions below are a shallow embedding of the TypeScript sources:

* `Json`, `normalizeValueForHash`, `stableHash`, `arePipelinesEqual` embed the
  artifact-equality helpers of `src/lib/index.ts` (lines 717-753);
* the agent state machine (`PersistedConversationState`, `applyControlRequests`,
  `buildAgentState`, `executePromptWorkflow`) embeds `src/lib/index.ts`
  lines 305-922, with the effectful agent run passed in as data;
* the conversation engine (`ConvState`, `processItems`, `startConv`) embeds the
  `Conversation` class of `src/unnamed/part_006`;
* `createResponseWithTemperatureFallback` embeds `src/lib/openai-utils.ts`.

Values crossing the JavaScript boundary are modelled as `Json` trees; time
(`Date.now()`) is passed in as an explicit `now : Nat` parameter; callbacks are
modelled as an ordered list of emitted `CallbackEvent`s.
-/

/-- Model of a JavaScript JSON value: `null`, booleans, numbers, strings,
arrays, and objects as ordered association lists (JavaScript objects preserve
key insertion order, which `normalizeValueForHash` deliberately erases). -/
inductive Json where
  | null
  | bool (b : Bool)
  | num (n : Int)
  | str (s : String)
  | arr (items : List Json)
  | obj (entries : List (String × Json))

/-- Key-comparison preorder on object entries, mirroring the JavaScript
`Object.keys(value).sort()` comparison of keys. -/
def entryLe (a b : String × Json) : Prop := a.1 ≤ b.1

/-- Entries with distinct keys (JavaScript objects never repeat a key). -/
def entryNe (a b : String × Json) : Prop := a.1 ≠ b.1

/-- Strict key comparison, used to show sorted duplicate-free entry lists are
uniquely determined. -/
def entryLt (a b : String × Json) : Prop := a.1 < b.1

instance : DecidableRel entryLe := fun a b =>
  inferInstanceAs (Decidable (a.1 ≤ b.1))

instance : IsTotal (String × Json) entryLe :=
  ⟨fun a b => le_total a.1 b.1⟩

instance : IsTrans (String × Json) entryLe :=
  ⟨fun _ _ _ h₁ h₂ => le_trans h₁ h₂⟩

instance : IsAntisymm (String × Json) entryLt :=
  ⟨fun _ _ h₁ h₂ => absurd (lt_trans h₁ h₂) (lt_irrefl _)⟩

/-- Sorting of object entries by key; embeds `Object.keys(value).sort()`
followed by rebuilding the object in sorted key order. -/
def sortEntries (es : List (String × Json)) : List (String × Json) :=
  List.insertionSort entryLe es

mutual

/-- Embeds `normalizeValueForHash` (src/lib/index.ts:717): arrays are
normalized element-wise, objects are rebuilt with sorted keys and normalized
values, and primitives are returned unchanged. -/
def normalizeValueForHash : Json → Json
  | .null => .null
  | .bool b => .bool b
  | .num n => .num n
  | .str s => .str s
  | .arr items => .arr (normalizeList items)
  | .obj entries => .obj (sortEntries (normalizeEntries entries))

/-- Element-wise normalization of an array's items. -/
def normalizeList : List Json → List Json
  | [] => []
  | x :: xs => normalizeValueForHash x :: normalizeList xs

/-- Value-wise normalization of an object's entries (keys untouched). -/
def normalizeEntries : List (String × Json) → List (String × Json)
  | [] => []
  | (k, v) :: es => (k, normalizeValueForHash v) :: normalizeEntries es

end

mutual

/-- Model of `JSON.stringify` on JSON trees, used by `stableHash`. -/
def stringifyJson : Json → String
  | .null => "null"
  | .bool b => cond b "true" "false"
  | .num n => toString n
  | .str s => "\"" ++ s ++ "\""
  | .arr items => "[" ++ stringifyList items ++ "]"
  | .obj entries => "\x7b" ++ stringifyEntries entries ++ "\x7d"

/-- Comma-joined serialization of array items. -/
def stringifyList : List Json → String
  | [] => ""
  | [x] => stringifyJson x
  | x :: xs => stringifyJson x ++ "," ++ stringifyList xs

/-- Comma-joined serialization of object entries. -/
def stringifyEntries : List (String × Json) → String
  | [] => ""
  | [(k, v)] => "\"" ++ k ++ "\":" ++ stringifyJson v
  | (k, v) :: es => "\"" ++ k ++ "\":" ++ stringifyJson v ++ "," ++ stringifyEntries es

end

/-- Embeds `stableHash` (src/lib/index.ts:736):
`JSON.stringify(this.normalizeValueForHash(value))`. -/
def stableHash (value : Json) : String :=
  stringifyJson (normalizeValueForHash value)

/-- Embeds `arePipelinesEqual` (src/lib/index.ts:740): both absent means equal,
one absent means unequal, otherwise compare stable hashes. -/
def arePipelinesEqual (first second : Option Json) : Bool :=
  match first, second with
  | none, none => true
  | none, some _ => false
  | some _, none => false
  | some f, some s => stableHash f == stableHash s

/-- Deep, key-order-independent structural equality of JSON values: primitives
must be identical, arrays must match element-wise in order, and objects must
have the same keys binding structurally equal values, in any order (the second
object is an arbitrary interleaving of the first object's entries). -/
inductive JsonEquiv : Json → Json → Prop where
  | null : JsonEquiv .null .null
  | bool (b : Bool) : JsonEquiv (.bool b) (.bool b)
  | num (n : Int) : JsonEquiv (.num n) (.num n)
  | str (s : String) : JsonEquiv (.str s) (.str s)
  | arrNil : JsonEquiv (.arr []) (.arr [])
  | arrCons {x y : Json} {xs ys : List Json} :
      JsonEquiv x y → JsonEquiv (.arr xs) (.arr ys) →
      JsonEquiv (.arr (x :: xs)) (.arr (y :: ys))
  | objNil : JsonEquiv (.obj []) (.obj [])
  | objCons {k : String} {v w : Json} {xs ys zs : List (String × Json)} :
      JsonEquiv v w → JsonEquiv (.obj xs) (.obj (ys ++ zs)) →
      JsonEquiv (.obj ((k, v) :: xs)) (.obj (ys ++ (k, w) :: zs))

/-- Checks that a key does not occur among the keys of an entry list. -/
def keyFresh (k : String) : List (String × Json) → Bool
  | [] => true
  | e :: es => (k != e.1) && keyFresh k es

/-- Checks that an entry list has pairwise distinct keys. -/
def keysNodupB : List (String × Json) → Bool
  | [] => true
  | e :: es => keyFresh e.1 es && keysNodupB es

mutual

/-- Well-formedness of a JSON value as produced by the JavaScript runtime:
every object in the tree has pairwise distinct keys. -/
def jsonWf : Json → Bool
  | .null => true
  | .bool _ => true
  | .num _ => true
  | .str _ => true
  | .arr items => jsonWfList items
  | .obj entries => keysNodupB entries && jsonWfEntries entries

/-- Well-formedness of every element of an array. -/
def jsonWfList : List Json → Bool
  | [] => true
  | x :: xs => jsonWf x && jsonWfList xs

/-- Well-formedness of every value of an object. -/
def jsonWfEntries : List (String × Json) → Bool
  | [] => true
  | e :: es => jsonWf e.2 && jsonWfEntries es

end

theorem keyFresh_iff {k : String} {es : List (String × Json)} :
    keyFresh k es = true ↔ ∀ e ∈ es, k ≠ e.1 := by
  induction es with
  | nil => simp [keyFresh]
  | cons e es ih =>
    simp [keyFresh, ih, bne_iff_ne]

theorem keysNodupB_pairwise {es : List (String × Json)}
    (h : keysNodupB es = true) : es.Pairwise entryNe := by
  induction es with
  | nil => exact List.Pairwise.nil
  | cons e es ih =>
    simp only [keysNodupB, Bool.and_eq_true] at h
    exact List.Pairwise.cons (fun b hb => keyFresh_iff.mp h.1 b hb) (ih h.2)

theorem keyFresh_append_mid {k : String} {e : String × Json}
    {ys zs : List (String × Json)}
    (h : keyFresh k (ys ++ e :: zs) = true) : keyFresh k (ys ++ zs) = true := by
  induction ys with
  | nil => simp [keyFresh] at h ⊢; exact h.2
  | cons y ys ih =>
    simp only [List.cons_append, keyFresh, Bool.and_eq_true] at h ⊢
    exact ⟨h.1, ih h.2⟩

theorem keysNodupB_append_mid {e : String × Json} {ys zs : List (String × Json)}
    (h : keysNodupB (ys ++ e :: zs) = true) : keysNodupB (ys ++ zs) = true := by
  induction ys with
  | nil =>
    simp only [List.nil_append, keysNodupB, Bool.and_eq_true] at h ⊢
    exact h.2
  | cons y ys ih =>
    simp only [List.cons_append, keysNodupB, Bool.and_eq_true] at h ⊢
    exact ⟨keyFresh_append_mid h.1, ih h.2⟩

theorem jsonWfEntries_append_mid {e : String × Json} {ys zs : List (String × Json)}
    (h : jsonWfEntries (ys ++ e :: zs) = true) : jsonWfEntries (ys ++ zs) = true := by
  induction ys with
  | nil =>
    simp only [List.nil_append, jsonWfEntries, Bool.and_eq_true] at h ⊢
    exact h.2
  | cons y ys ih =>
    simp only [List.cons_append, jsonWfEntries, Bool.and_eq_true] at h ⊢
    exact ⟨h.1, ih h.2⟩

theorem normalizeEntries_eq_map (es : List (String × Json)) :
    normalizeEntries es = es.map (fun e => (e.1, normalizeValueForHash e.2)) := by
  induction es with
  | nil => rfl
  | cons e es ih => cases e; simp [normalizeEntries, ih]

theorem normalizeEntries_append (ys zs : List (String × Json)) :
    normalizeEntries (ys ++ zs) = normalizeEntries ys ++ normalizeEntries zs := by
  simp [normalizeEntries_eq_map]

theorem pairwise_entryNe_normalizeEntries {es : List (String × Json)}
    (h : es.Pairwise entryNe) : (normalizeEntries es).Pairwise entryNe := by
  rw [normalizeEntries_eq_map, List.pairwise_map]
  exact h.imp (fun hne => hne)

theorem sorted_entryLt_of_le_ne {l : List (String × Json)}
    (hs : l.Sorted entryLe) (hn : l.Pairwise entryNe) : l.Sorted entryLt :=
  (hs.and hn).imp (fun h => lt_of_le_of_ne h.1 h.2)

theorem sortEntries_eq_of_perm {A B : List (String × Json)} (h : A.Perm B)
    (hA : A.Pairwise entryNe) : sortEntries A = sortEntries B := by
  have pA : (sortEntries A).Perm A := List.perm_insertionSort entryLe A
  have pB : (sortEntries B).Perm B := List.perm_insertionSort entryLe B
  have hB : B.Pairwise entryNe :=
    (h.pairwise_iff (fun hxy => Ne.symm hxy)).mp hA
  have nA : (sortEntries A).Pairwise entryNe :=
    (pA.pairwise_iff (fun hxy => Ne.symm hxy)).mpr hA
  have nB : (sortEntries B).Pairwise entryNe :=
    (pB.pairwise_iff (fun hxy => Ne.symm hxy)).mpr hB
  exact List.eq_of_perm_of_sorted (pA.trans (h.trans pB.symm))
    (sorted_entryLt_of_le_ne (List.sorted_insertionSort entryLe A) nA)
    (sorted_entryLt_of_le_ne (List.sorted_insertionSort entryLe B) nB)

theorem jsonWfEntries_mid {e : String × Json} {ys zs : List (String × Json)}
    (h : jsonWfEntries (ys ++ e :: zs) = true) : jsonWf e.2 = true := by
  induction ys with
  | nil =>
    simp only [List.nil_append, jsonWfEntries, Bool.and_eq_true] at h
    exact h.1
  | cons y ys ih =>
    simp only [List.cons_append, jsonWfEntries, Bool.and_eq_true] at h
    exact ih h.2

/-- Key lemma for artifact-change suppression: deep key-order-independent
structural equality of well-formed JSON values is erased by
`normalizeValueForHash`. -/
theorem normalize_eq_of_equiv : ∀ {a b : Json}, JsonEquiv a b →
    jsonWf a = true → jsonWf b = true →
    normalizeValueForHash a = normalizeValueForHash b := by
  intro a b h
  induction h with
  | null => intro _ _; rfl
  | bool b => intro _ _; rfl
  | num n => intro _ _; rfl
  | str s => intro _ _; rfl
  | arrNil => intro _ _; rfl
  | arrCons hxy hxs ih₁ ih₂ =>
    intro ha hb
    simp only [jsonWf, jsonWfList, Bool.and_eq_true] at ha hb
    have h₁ := ih₁ ha.1 hb.1
    have h₂ := ih₂ (by simp [jsonWf, ha.2]) (by simp [jsonWf, hb.2])
    simp only [normalizeValueForHash, normalizeList] at h₂ ⊢
    injection h₂ with h₂
    rw [h₁, h₂]
  | objNil => intro _ _; rfl
  | @objCons k v w xs ys zs hvw htail ih₁ ih₂ =>
    intro ha hb
    simp only [jsonWf, keysNodupB, jsonWfEntries, Bool.and_eq_true] at ha
    simp only [jsonWf, Bool.and_eq_true] at hb
    have hfresh : keyFresh k xs = true := ha.1.1
    have hnodup : keysNodupB xs = true := ha.1.2
    have hwv : jsonWf v = true := ha.2.1
    have hwxs : jsonWfEntries xs = true := ha.2.2
    have hbnodup : keysNodupB (ys ++ zs) = true := keysNodupB_append_mid hb.1
    have hww : jsonWf w = true := jsonWfEntries_mid (e := (k, w)) hb.2
    have hbvals : jsonWfEntries (ys ++ zs) = true := jsonWfEntries_append_mid hb.2
    have hval : normalizeValueForHash v = normalizeValueForHash w := ih₁ hwv hww
    have htl : normalizeValueForHash (.obj xs) = normalizeValueForHash (.obj (ys ++ zs)) :=
      ih₂ (by simp [jsonWf, hnodup, hwxs]) (by simp [jsonWf, hbnodup, hbvals])
    simp only [normalizeValueForHash] at htl ⊢
    injection htl with htl
    have hperm : (normalizeEntries xs).Perm (normalizeEntries ys ++ normalizeEntries zs) := by
      have p₁ : (normalizeEntries xs).Perm (sortEntries (normalizeEntries xs)) :=
        (List.perm_insertionSort entryLe _).symm
      have p₂ : (sortEntries (normalizeEntries (ys ++ zs))).Perm
          (normalizeEntries ys ++ normalizeEntries zs) := by
        rw [← normalizeEntries_append]
        exact List.perm_insertionSort entryLe _
      exact (p₁.trans (htl ▸ p₂))
    have hpairA : ((k, normalizeValueForHash v) :: normalizeEntries xs).Pairwise entryNe := by
      have : ((k, v) :: xs).Pairwise entryNe := by
        apply keysNodupB_pairwise
        simp [keysNodupB, hfresh, hnodup]
      have := pairwise_entryNe_normalizeEntries this
      simpa [normalizeEntries] using this
    have hAB : ((k, normalizeValueForHash v) :: normalizeEntries xs).Perm
        (normalizeEntries ys ++ (k, normalizeValueForHash w) :: normalizeEntries zs) := by
      rw [← hval]
      exact (hperm.cons _).trans List.perm_middle.symm
    have hsorted := sortEntries_eq_of_perm hAB hpairA
    show Json.obj (sortEntries (normalizeEntries ((k, v) :: xs))) =
      Json.obj (sortEntries (normalizeEntries (ys ++ (k, w) :: zs)))
    rw [normalizeEntries, normalizeEntries_append]
    simp only [normalizeEntries]
    rw [hsorted]

/-! Agent state machine (src/lib/index.ts lines 305-922). -/

/-- Embeds `ConversationPhase` (src/lib/index.ts:305). -/
inductive ConversationPhase where
  | idle
  | acting
  | awaitingUser
  | complete
  | paused
  | error
deriving DecidableEq, Repr

/-- JavaScript truthiness of an optional string: `undefined` and the empty
string are falsy. -/
def truthyStr : Option String → Option String
  | none => none
  | some s => if s.isEmpty then none else some s

/-- Embeds `AgentOutputData` (src/lib/index.ts:313). -/
structure AgentOutputData where
  description : Option String := none
  data : Option Json := none
  final : Option Bool := none

/-- Audience tag of an agent chat message. -/
inductive ChatAudience where
  | user
  | observers
deriving DecidableEq, Repr

/-- String form of a chat audience, as interpolated into status updates. -/
def audienceLabel : ChatAudience → String
  | .user => "user"
  | .observers => "observers"

/-- Embeds `AgentChatMessage` (src/lib/index.ts:319); the source's `at` field
is spelled `sentAt` because `at` is reserved in Lean. -/
structure AgentChatMessage where
  message : String
  audience : ChatAudience
  sentAt : Nat

/-- Embeds `AgentRunVerification` (src/lib/index.ts:325). -/
structure AgentRunVerification where
  success : Bool
  errors : Option (List Json) := none
  note : Option String := none
  timestamp : Nat

/-- Embeds `AgentArtifactState` (src/lib/index.ts:332). -/
structure AgentArtifactState where
  messages : Option (List Json) := none
  lastMessage : Option String := none
  lastTool : Option String := none
  pendingQuestion : Option String := none
  outputData : Option AgentOutputData := none
  chatLog : Option (List AgentChatMessage) := none
  lastVerification : Option AgentRunVerification := none

/-- Model of the compiled pipeline artifact produced by the external
pipeline compiler; opaque to the orchestration layer. -/
structure Pipeline where
  compiled : Json

/-- Embeds `EmittedPipelineResult` (src/lib/index.ts:342). -/
structure EmittedPipelineResult where
  raw : Json
  pipeline : Pipeline

/-- Embeds `AgentRunResult` (src/lib/index.ts:347): everything
`runAgentInternal` reports back to the workflow. -/
structure AgentRunResult where
  messages : List Json := []
  outputText : Option String := none
  emittedPipeline : Option EmittedPipelineResult := none
  pendingQuestion : Option String := none
  outputData : Option AgentOutputData := none
  chatMessages : List AgentChatMessage := []
  verification : Option AgentRunVerification := none
  finishRequested : Option Bool := none
  lastTool : Option String := none

/-- Embeds the metadata record (`Record<string, unknown>`) as the closed set
of keys the provider actually writes. -/
structure Metadata where
  lastInstructionAt : Option Nat := none
  lastAgentMessage : Option String := none
  lastAgentTool : Option String := none
  pendingQuestion : Option String := none
  lastOutputDataSummary : Option String := none
  lastUpdatedAt : Option Nat := none
  pipelineChanged : Option Bool := none
  pipelineUpdatedAt : Option Nat := none
  outputCompletedAt : Option Nat := none

/-- Embeds the `pipeline` field of `PersistedConversationState`
(src/lib/index.ts:365). -/
structure PipelineStateField where
  json : Option Json := none
  messages : Option (List Json) := none
  updatedAt : Option Nat := none

/-- Embeds `PersistedConversationState` (src/lib/index.ts:359). -/
structure PersistedConversationState where
  prompt : String
  additionalInstructions : Option (List String) := none
  phase : ConversationPhase
  resumePhase : Option ConversationPhase := none
  agent : Option AgentArtifactState := none
  pipeline : Option PipelineStateField := none
  retries : Option Nat := none
  pausedReason : Option String := none
  metadata : Option Metadata := none

/-- Embeds `AiAgentControlRequest`: `pause` (optional reason), `resume`, or
`addMessages` with arbitrary JSON payloads. -/
inductive AiAgentControlRequest where
  | pause (reason : Option String)
  | resume
  | addMessages (messages : List Json)

/-- Embeds `createInitialState` (src/lib/index.ts:502). -/
def createInitialState (prompt : String) : PersistedConversationState :=
  { prompt := prompt, phase := .idle }

/-- Embeds `stringifyInstruction` (src/lib/index.ts:587): strings are trimmed
and dropped when empty, numbers and booleans are stringified, `null` (falsy)
yields nothing, and other values are JSON-serialized. -/
def stringifyInstruction : Json → Option String
  | .str s =>
    let trimmed := s.trim
    if trimmed.isEmpty then none else some trimmed
  | .num n => some (toString n)
  | .bool b => some (cond b "true" "false")
  | .null => none
  | .arr items => some (stringifyJson (.arr items))
  | .obj entries => some (stringifyJson (.obj entries))

/-- Embeds `applyControlRequests` (src/lib/index.ts:608): requests are applied
in order; `pause` remembers the current phase unless already paused; `resume`
restores the remembered phase (default idle) and clears the reason;
`addMessages` appends the non-empty stringified instructions, discards stored
agent and pipeline state, and forces the phase to idle (a request whose
messages all normalize to nothing is skipped). `Date.now()` is `now`. -/
def applyControlRequests (state : PersistedConversationState)
    (requests : List AiAgentControlRequest) (now : Nat) :
    PersistedConversationState :=
  requests.foldl (fun next request =>
    match request with
    | .pause reason =>
      let next :=
        if next.phase ≠ .paused then { next with resumePhase := some next.phase }
        else next
      { next with phase := .paused, pausedReason := reason }
    | .resume =>
      if next.phase = .paused then
        { next with phase := next.resumePhase.getD .idle,
                    resumePhase := none, pausedReason := none }
      else next
    | .addMessages messages =>
      let additions :=
        (messages.filterMap stringifyInstruction).filter (fun v => v.length > 0)
      if additions.isEmpty then next
      else
        { next with
          additionalInstructions :=
            some ((next.additionalInstructions.getD []) ++ additions),
          agent := none,
          pipeline := none,
          phase := .idle,
          metadata := some { (next.metadata.getD {}) with
                              lastInstructionAt := some now } }) state

/-- Embeds `composePrompt` (src/lib/index.ts:666). -/
def composePrompt (state : PersistedConversationState) : String :=
  match state.additionalInstructions with
  | none => state.prompt
  | some [] => state.prompt
  | some instructions =>
    state.prompt ++ "\n\nAdditional instructions:\n" ++
      String.intercalate "\n"
        (instructions.enum.map (fun p => toString (p.1 + 1) ++ ". " ++ p.2))

/-- Embeds `describePhase` (src/lib/index.ts:678); empty strings are falsy in
the source's conditionals. -/
def describePhase (state : PersistedConversationState) : String :=
  match state.phase with
  | .idle => "Idle"
  | .acting => "Working"
  | .awaitingUser =>
    match truthyStr (state.agent.bind (fun a => a.pendingQuestion)) with
    | some q => "Awaiting user: " ++ q
    | none => "Awaiting user"
  | .complete => "Complete"
  | .paused =>
    match truthyStr state.pausedReason with
    | some r => "Paused: " ++ r
    | none => "Paused"
  | .error => "Error"

/-- Embeds `AiAgentConversationState` as returned by `buildAgentState`. -/
structure AiAgentConversationState where
  id : String
  state : PersistedConversationState
  status : String
  metadata : Option Metadata
  isPaused : Bool
  isComplete : Bool

/-- Embeds `buildAgentState` (src/lib/index.ts:699): `isPaused` reflects the
snapshot phase; `isComplete` defaults to "phase is complete and no (truthy)
paused reason" unless overridden. -/
def buildAgentState (conversationId : String)
    (state : PersistedConversationState) (statusOverride : Option String)
    (isCompleteOverride : Option Bool) : AiAgentConversationState :=
  { id := conversationId
    state := state
    status := statusOverride.getD (describePhase state)
    metadata := state.metadata
    isPaused := state.phase = .paused
    isComplete := isCompleteOverride.getD
      (state.phase = .complete && (truthyStr state.pausedReason).isNone) }

/-- Callback invocations observable by the caller of an exchange, in order:
`onStatusUpdate` and `onPipelineUpdate`. -/
inductive CallbackEvent where
  | statusUpdate (message : String)
  | pipelineUpdate (pipeline : Pipeline)

/-- Result of one exchange: the returned conversation state plus the ordered
callback invocations. -/
structure WorkflowOutcome where
  result : AiAgentConversationState
  events : List CallbackEvent

/-- Embeds `executePromptWorkflow` (src/lib/index.ts:755). The effectful agent
run (`runAgentInternal`) is passed in as its result `agentResult`; `Date.now()`
is `now`. Callbacks become an ordered `events` list. -/
def executePromptWorkflow (conversationId : String)
    (state : PersistedConversationState) (previousPipeline : Json)
    (controlRequests : List AiAgentControlRequest)
    (agentResult : AgentRunResult) (now : Nat) : WorkflowOutcome :=
  let nextState := applyControlRequests state controlRequests now
  if nextState.phase = .paused then
    { result := buildAgentState conversationId nextState none none
      events := [.statusUpdate (match truthyStr nextState.pausedReason with
        | some r => "Paused: " ++ r
        | none => "Paused")] }
  else if nextState.phase = .awaitingUser then
    { result := buildAgentState conversationId nextState
        (some (describePhase nextState)) (some false)
      events := [.statusUpdate
        (match truthyStr (nextState.agent.bind (fun a => a.pendingQuestion)) with
        | some q => "Awaiting user input: " ++ q
        | none => "Awaiting user input")] }
  else
    let withAgent : PersistedConversationState :=
      { nextState with
        phase := .acting
        agent := some
          { messages := some agentResult.messages
            lastMessage := agentResult.outputText
            lastTool := agentResult.lastTool
            pendingQuestion := agentResult.pendingQuestion
            outputData := agentResult.outputData
            chatLog :=
              if agentResult.chatMessages.isEmpty then none
              else some agentResult.chatMessages
            lastVerification := agentResult.verification }
        metadata := some { (nextState.metadata.getD {}) with
          lastAgentMessage := agentResult.outputText
          lastAgentTool := agentResult.lastTool
          pendingQuestion := agentResult.pendingQuestion
          lastOutputDataSummary := agentResult.outputData.bind (fun d => d.description)
          lastUpdatedAt := some now } }
    let chatEvents := agentResult.chatMessages.map (fun chat =>
      CallbackEvent.statusUpdate
        ("[chat:" ++ audienceLabel chat.audience ++ "] " ++ chat.message))
    let outputEvents :=
      match agentResult.outputData with
      | some od => [CallbackEvent.statusUpdate
          ((cond (od.final.getD false) "Output" "Progress") ++ ": " ++
            (od.description.getD "Data ready"))]
      | none => []
    let baseEvents :=
      CallbackEvent.statusUpdate "Agent working" :: (chatEvents ++ outputEvents)
    match truthyStr agentResult.pendingQuestion with
    | some q =>
      let s := { withAgent with phase := .awaitingUser }
      { result := buildAgentState conversationId s
          (some "Awaiting user input") (some false)
        events := baseEvents ++ [.statusUpdate ("Awaiting user input: " ++ q)] }
    | none =>
      match agentResult.emittedPipeline with
      | some ep =>
        let pipelineChanged :=
          !(arePipelinesEqual (some previousPipeline) (some ep.raw))
        let s := { withAgent with
          pipeline := some { json := some ep.raw
                             messages := some agentResult.messages
                             updatedAt := some now }
          metadata := some { (withAgent.metadata.getD {}) with
            pipelineChanged := some pipelineChanged
            pipelineUpdatedAt := some now }
          phase := .complete }
        if pipelineChanged then
          { result := buildAgentState conversationId s
              (some "Pipeline updated") (some true)
            events := baseEvents ++
              [.pipelineUpdate ep.pipeline, .statusUpdate "Pipeline updated"] }
        else
          { result := buildAgentState conversationId s
              (some "Pipeline unchanged") (some true)
            events := baseEvents ++ [.statusUpdate "Pipeline unchanged"] }
      | none =>
        if (agentResult.outputData.map (fun od => od.final.getD false)).getD false then
          let s := { withAgent with
            phase := .complete
            metadata := some { (withAgent.metadata.getD {}) with
              outputCompletedAt := some now } }
          { result := buildAgentState conversationId s
              (some ((agentResult.outputData.bind (fun d => d.description)).getD
                "Output ready")) (some true)
            events := baseEvents }
        else if agentResult.finishRequested = some false then
          let s := { withAgent with phase := .idle }
          { result := buildAgentState conversationId s
              (some (agentResult.outputText.getD "Idle")) (some false)
            events := baseEvents }
        else
          let s := { withAgent with phase := .complete }
          { result := buildAgentState conversationId s
              (some (agentResult.outputText.getD "Complete")) (some true)
            events := baseEvents }

/-! Conversation engine (src/unnamed/part_006, class `Conversation`). -/

/-- History entries and model-response items of the conversation engine.
`input` covers the seeded prompt items; `functionCall`, `functionCallOutput`
and `message` are the item kinds the loop inspects; `reasoning` stands for any
other response item kind, which the loop appends and otherwise ignores. -/
inductive HistoryItem where
  | input (role content : String)
  | functionCall (name callId args : String)
  | functionCallOutput (callId output : String)
  | message (text : String)
  | reasoning (id : String)
deriving DecidableEq, Repr

/-- Mutable state of a `Conversation`: the append-only history, the terminal
output, the number of `onMessages` observer invocations (one per append), and
the number of network rounds sent. -/
structure ConvState where
  history : List HistoryItem
  output : Option String := none
  notifications : Nat := 0
  rounds : Nat := 0

/-- Embeds `#pushMessage` (src/unnamed/part_006:53): append to history, then
invoke the caller observer. -/
def pushMessage (s : ConvState) (item : HistoryItem) : ConvState :=
  { s with history := s.history ++ [item],
           notifications := s.notifications + 1 }

/-- Caller-supplied tool handler: receives the call's name and arguments plus
the current history, and either returns a JSON value or throws (modelled as
`Except.error` carrying the thrown error's message). -/
def ToolHandler : Type :=
  String → String → List HistoryItem → Except String Json

/-- One model response: ordered output items plus the aggregate output text. -/
structure RoundResponse where
  output : List HistoryItem
  outputText : String

/-- Errors the conversation loop can raise: the misuse assertion, a
cancellation error, or a transport failure. Tool-handler errors have no
constructor here because the loop absorbs them into history. -/
inductive ConvError where
  | misuse (msg : String)
  | aborted (reason : String)
  | transport (msg : String)
deriving DecidableEq, Repr

/-- Embeds the per-response item loop of `Conversation.start`
(src/unnamed/part_006:181-238): push each item; for a function call, run the
handler and push a result item (serialized value on success, a readable error
string on failure); on the first plain message item record the terminal output
and stop, dropping any remaining items of this response; push and continue on
anything else. Returns the new state and whether the outer loop keeps running. -/
def processItems (handle : ToolHandler) :
    List HistoryItem → String → ConvState → ConvState × Bool
  | [], _, s => (s, true)
  | item :: rest, outputText, s =>
    let s₁ := pushMessage s item
    match item with
    | .functionCall name callId args =>
      (match handle name args s₁.history with
       | .ok v =>
         processItems handle rest outputText
           (pushMessage s₁ (.functionCallOutput callId (stringifyJson v)))
       | .error e =>
         processItems handle rest outputText
           (pushMessage s₁
             (.functionCallOutput callId ("Error while executing function: " ++ e))))
    | .message _ => ({ s₁ with output := some outputText }, false)
    | _ => processItems handle rest outputText s₁

/-- Embeds the `while (running)` loop of `Conversation.start`: check the
cancellation signal, send the history (one entry of `responses` per network
round; an exhausted transcript or an `Except.error` entry is a transport
failure), and process the response items. The cancellation signal is modelled
as the constant `aborted` because the claims only concern signals that do not
flip mid-run. On a thrown error the state at the throw is returned with it. -/
def convLoop (handle : ToolHandler) (aborted : Bool) (abortReason : String) :
    List (Except String RoundResponse) → ConvState →
    Except (ConvError × ConvState) ConvState
  | responses, s =>
    if aborted then .error (.aborted abortReason, s)
    else
      match responses with
      | [] => .error (.transport "no response from model", s)
      | .error msg :: _ =>
        .error (.transport msg, { s with rounds := s.rounds + 1 })
      | .ok resp :: rest =>
        let s₁ := { s with rounds := s.rounds + 1 }
        match processItems handle resp.output resp.outputText s₁ with
        | (s₂, true) => convLoop handle aborted abortReason rest s₂
        | (s₂, false) => .ok s₂

/-- Embeds `Conversation.start` (src/unnamed/part_006:131): assert the
exchange is not already terminal, check the cancellation signal, then run the
round loop. -/
def startConv (handle : ToolHandler) (aborted : Bool) (abortReason : String)
    (responses : List (Except String RoundResponse)) (s : ConvState) :
    Except (ConvError × ConvState) ConvState :=
  if s.output.isSome then
    .error (.misuse "Cannot start a conversation that is already complete", s)
  else if aborted then
    .error (.aborted abortReason, s)
  else
    convLoop handle aborted abortReason responses s

/-! Temperature degrade-retry (src/lib/openai-utils.ts). -/

/-- Decides whether `needle` occurs as a contiguous run inside `hay`,
modelling `String.prototype.includes`. -/
def charsContain (needle : List Char) : List Char → Bool
  | [] => needle.isEmpty
  | c :: rest => needle.isPrefixOf (c :: rest) || charsContain needle rest

/-- String-level containment used by the error sniffing below. -/
def strIncludes (s pat : String) : Bool :=
  charsContain pat.data s.data

/-- ASCII lowercasing of one character, modelling
`String.prototype.toLowerCase` on the ASCII error messages at play. -/
def lowerChar (c : Char) : Char :=
  if c.isUpper then Char.ofNat (c.toNat + 32) else c

/-- ASCII lowercasing of a string. -/
def lowerString (s : String) : String :=
  String.mk (s.data.map lowerChar)

/-- Model of a transport rejection: whether the thrown value was an `Error`
instance, its message, and its optional HTTP status. -/
structure TransportError where
  isErrorInstance : Bool
  message : String
  status : Option Nat
deriving DecidableEq, Repr

/-- Embeds `isUnsupportedTemperatureError` (src/lib/openai-utils.ts:7): an
`Error` whose lowercased message contains both "temperature" and
"not supported", with no status or status 400. -/
def isUnsupportedTemperatureError (e : TransportError) : Bool :=
  e.isErrorInstance &&
  strIncludes (lowerString e.message) "temperature" &&
  strIncludes (lowerString e.message) "not supported" &&
  (match e.status with
   | none => true
   | some st => st == 400)

/-- Request payload fields relevant to the degrade-retry: the model id and the
optional sampling temperature (absent and `undefined` coincide). -/
structure ResponsePayload where
  model : String
  temperature : Option Int := none
deriving DecidableEq, Repr

/-- Removal of the temperature field, embedding the rest-spread
`const { temperature, ...payloadWithoutTemperature } = payload`. -/
def stripTemperature (p : ResponsePayload) : ResponsePayload :=
  { p with temperature := none }

/-- Embeds `createResponseWithTemperatureFallback`
(src/lib/openai-utils.ts:22). The remote endpoint is a function from payloads
to outcomes; alongside the outcome we return the list of payloads actually
sent, in order, so retry counts are observable. -/
def createResponseWithTemperatureFallback {R : Type}
    (endpoint : ResponsePayload → Except TransportError R)
    (payload : ResponsePayload) :
    Except TransportError R × List ResponsePayload :=
  if payload.temperature.isNone then
    (endpoint payload, [payload])
  else
    match endpoint payload with
    | .ok r => (.ok r, [payload])
    | .error e =>
      if isUnsupportedTemperatureError e then
        let stripped := stripTemperature payload
        (endpoint stripped, [payload, stripped])
      else
        (.error e, [payload])

/-! Terminal-output validation (src/lib/index.ts:1277) and the retry-until-valid
workflow of spec section 4.4. -/

/-- Outcome of the external pipeline compiler `compile(raw)`. -/
inductive CompileOutcome where
  | compiled (pipeline : Pipeline)
  | failed (errors : List Json)

/-- Result shape of `validateAndCompilePipeline`: a success carrying the raw
object and compiled pipeline, or an expected validation/compile failure
carrying the error list. -/
inductive VcResult where
  | success (raw : Json) (pipeline : Pipeline)
  | failure (errors : List Json)

/-- Validation tail of `validateAndCompilePipeline`: reject non-objects as a
hard input error, then schema-validate and compile, never throwing on an
expected validation or compilation failure. -/
def validateCompileObject (validatePipelineSchema : Json → Bool)
    (validationErrors : List Json) (compile : Json → CompileOutcome)
    (normalized : Json) : Except String VcResult :=
  match normalized with
  | .obj entries =>
    if validatePipelineSchema (.obj entries) then
      match compile (.obj entries) with
      | .compiled p => .ok (.success (.obj entries) p)
      | .failed errs => .ok (.failure errs)
    else
      .ok (.failure validationErrors)
  | _ => .error "pipeline must be a JSON object"

/-- Embeds `validateAndCompilePipeline` (src/lib/index.ts:1277): string
candidates are trimmed and parsed (an empty or non-parseable string is a hard
input error, modelled by the caller-supplied `parseJson`), then the candidate
must be a JSON object, which is schema-validated and compiled. -/
def validateAndCompilePipeline (parseJson : String → Option Json)
    (validatePipelineSchema : Json → Bool) (validationErrors : List Json)
    (compile : Json → CompileOutcome) (candidate : Json) :
    Except String VcResult :=
  match candidate with
  | .str s =>
    let trimmed := s.trim
    if trimmed.isEmpty then .error "pipeline is required"
    else
      match parseJson trimmed with
      | none => .error "pipeline must be valid JSON"
      | some parsed =>
        validateCompileObject validatePipelineSchema validationErrors compile parsed
  | other =>
    validateCompileObject validatePipelineSchema validationErrors compile other

/-- Modelled from the spec: outcome of driving the engine to one terminal text
and running it through parse, schema-validation and compilation — the chain of
`validateAndCompilePipeline`. The bounded retry loop that would drive these
attempts (spec section 4.4, "Retry-Until-Valid Workflow") has no loop in src/;
only this per-attempt chain and the snapshot's `retries` bookkeeping field
appear there. -/
inductive AttemptOutcome where
  | parseFailure
  | validationFailure (errors : List Json)
  | compileFailure (errors : List Json)
  | valid (artifact : Pipeline)

/-- Modelled from the spec: the diagnostic message injected into history after
a failed attempt (parse error, validation error with its error list, or
compile error with the compiler errors). -/
inductive RetryDiagnostic where
  | parseError
  | validationError (errors : List Json)
  | compileError (errors : List Json)

/-- Decides whether an attempt outcome is one of the three failure kinds. -/
def isFailure : AttemptOutcome → Bool
  | .valid _ => false
  | _ => true

/-- Diagnostic injected for a failing attempt outcome. -/
def diagnosticFor : AttemptOutcome → List RetryDiagnostic
  | .parseFailure => [.parseError]
  | .validationFailure errs => [.validationError errs]
  | .compileFailure errs => [.compileError errs]
  | .valid _ => []

/-- Modelled from the spec: result of the retry-until-valid workflow — the
compiled artifact when some attempt passed, and the accumulated history of
injected diagnostics. The workflow never throws. -/
structure RetryRunResult where
  artifact : Option Pipeline
  history : List RetryDiagnostic

/-- Modelled from the spec: the bounded retry loop. Each attempt consumes one
engine drive (`outcomes` entry); a failure injects its diagnostic and retries;
a valid outcome returns the compiled artifact; exhausting the attempt budget
(or the engine transcript) returns the history with no artifact. -/
def runRetryLoop : Nat → List AttemptOutcome → List RetryDiagnostic →
    RetryRunResult
  | 0, _, hist => ⟨none, hist⟩
  | _ + 1, [], hist => ⟨none, hist⟩
  | n + 1, outcome :: rest, hist =>
    match outcome with
    | .valid artifact => ⟨some artifact, hist⟩
    | other => runRetryLoop n rest (hist ++ diagnosticFor other)

/-- Modelled from the spec: the retry-until-valid workflow with a fixed attempt
ceiling, started with an empty diagnostic history. -/
def retryUntilValid (ceiling : Nat) (outcomes : List AttemptOutcome) :
    RetryRunResult :=
  runRetryLoop ceiling outcomes []

/-! Claim theorems. -/

/-- C2: for every persisted state in any non-paused phase, applying a `pause`
control request followed by a `resume` control request, with no intervening
control request, yields a state whose phase equals the original pre-pause
phase, with the remembered resume phase and the pause reason cleared; and
`resume` on a paused state with no remembered phase defaults to `idle`. -/
theorem pause_then_resume_restores_phase
    (s : PersistedConversationState) (reason : Option String) (now : Nat)
    (h : s.phase ≠ .paused) :
    (applyControlRequests s [.pause reason, .resume] now).phase = s.phase ∧
    (applyControlRequests s [.pause reason, .resume] now).resumePhase = none ∧
    (applyControlRequests s [.pause reason, .resume] now).pausedReason = none ∧
    (applyControlRequests { s with phase := .paused, resumePhase := none }
      [.resume] now).phase = .idle := by
  simp [applyControlRequests, h]

/-- Witness for C2 at a concrete acting-phase state with a pause reason. -/
theorem pause_then_resume_restores_phase_witness :
    (applyControlRequests { prompt := "p", phase := .acting }
      [.pause (some "coffee"), .resume] 0).phase = ConversationPhase.acting ∧
    (applyControlRequests { prompt := "p", phase := .acting }
      [.pause (some "coffee"), .resume] 0).resumePhase = none ∧
    (applyControlRequests { prompt := "p", phase := .acting }
      [.pause (some "coffee"), .resume] 0).pausedReason = none ∧
    (applyControlRequests
      { ({ prompt := "p", phase := .acting } : PersistedConversationState) with
        phase := .paused, resumePhase := none } [.resume] 0).phase =
      ConversationPhase.idle :=
  pause_then_resume_restores_phase { prompt := "p", phase := .acting }
    (some "coffee") 0 (by decide)

/-- C3 counterexample: an `addMessages` request whose messages all normalize
to no instruction text (here a single `null` payload, which is falsy in the
source's `stringifyInstruction`) leaves the state unchanged, so the stored
agent state survives and the phase stays `complete` instead of being forced
to `idle`. -/
theorem addMessages_noop_counterexample :
    (applyControlRequests
      { prompt := "p", phase := .complete,
        agent := some { lastMessage := some "m" },
        pipeline := some { updatedAt := some 5 } }
      [.addMessages [.null]] 0).phase ≠ ConversationPhase.idle ∧
    (applyControlRequests
      { prompt := "p", phase := .complete,
        agent := some { lastMessage := some "m" },
        pipeline := some { updatedAt := some 5 } }
      [.addMessages [.null]] 0).agent.isSome = true := by
  constructor
  · decide
  · rfl

/-- C3 (amended): applying an `addMessages` control request whose messages
yield at least one non-empty instruction string appends those strings to the
accumulated extra instructions, discards the stored agent state and the stored
pipeline state, and sets the phase to idle, from any prior phase. -/
theorem addMessages_resets_state
    (s : PersistedConversationState) (messages : List Json) (now : Nat)
    (h : (messages.filterMap stringifyInstruction).filter
      (fun v => v.length > 0) ≠ []) :
    (applyControlRequests s [.addMessages messages] now).additionalInstructions
      = some ((s.additionalInstructions.getD []) ++
        (messages.filterMap stringifyInstruction).filter (fun v => v.length > 0)) ∧
    (applyControlRequests s [.addMessages messages] now).agent = none ∧
    (applyControlRequests s [.addMessages messages] now).pipeline = none ∧
    (applyControlRequests s [.addMessages messages] now).phase = .idle := by
  have h' : ((messages.filterMap stringifyInstruction).filter
      (fun v => v.length > 0)).isEmpty = false := by
    simpa [List.isEmpty_iff] using h
  simp [applyControlRequests, h']

/-- Witness for C3 (amended) at a concrete paused state receiving one
instruction (a numeric payload, stringified to "42"). -/
theorem addMessages_resets_state_witness :
    (applyControlRequests
      { prompt := "p", phase := .paused, pausedReason := some "why",
        agent := some { lastMessage := some "m" } }
      [.addMessages [.num 42]] 3).additionalInstructions = some ["42"] ∧
    (applyControlRequests
      { prompt := "p", phase := .paused, pausedReason := some "why",
        agent := some { lastMessage := some "m" } }
      [.addMessages [.num 42]] 3).agent = none ∧
    (applyControlRequests
      { prompt := "p", phase := .paused, pausedReason := some "why",
        agent := some { lastMessage := some "m" } }
      [.addMessages [.num 42]] 3).pipeline = none ∧
    (applyControlRequests
      { prompt := "p", phase := .paused, pausedReason := some "why",
        agent := some { lastMessage := some "m" } }
      [.addMessages [.num 42]] 3).phase = .idle :=
  addMessages_resets_state
    { prompt := "p", phase := .paused, pausedReason := some "why",
      agent := some { lastMessage := some "m" } }
    [.num 42] 3 (by decide)

/-- C8: when the cancellation signal is already set before the first network
round (and the exchange is not already terminal), the conversation raises a
cancellation-flavored error — a `ConvError.aborted`, distinguished by
constructor from transport failures — and the state at the throw is exactly
the constructed state: no history appended, no round sent. -/
theorem abort_before_first_round
    (handle : ToolHandler) (abortReason : String)
    (responses : List (Except String RoundResponse)) (s : ConvState)
    (h : s.output = none) :
    startConv handle true abortReason responses s =
      .error (.aborted abortReason, s) ∧
    (∀ m, ConvError.aborted abortReason ≠ ConvError.transport m) := by
  constructor
  · simp [startConv, h]
  · intro m
    exact fun hc => ConvError.noConfusion hc

/-- Witness for C8 on a freshly constructed conversation with one prompt item
and an available (unused) model response. -/
theorem abort_before_first_round_witness :
    startConv (fun _ _ _ => .ok .null) true "user cancelled"
      [.ok { output := [.message "hi"], outputText := "hi" }]
      { history := [.input "user" "go"] } =
      .error (.aborted "user cancelled", { history := [.input "user" "go"] }) ∧
    (∀ m, ConvError.aborted "user cancelled" ≠ ConvError.transport m) :=
  abort_before_first_round (fun _ _ _ => .ok .null) "user cancelled"
    [.ok { output := [.message "hi"], outputText := "hi" }]
    { history := [.input "user" "go"] } rfl

/-- C9: starting the step-wise driver on a conversation whose terminal output
is already set fails fast with the misuse assertion, before any network round:
the returned state is exactly the input state (same history, same round
count), regardless of the cancellation signal or of the available responses. -/
theorem start_on_terminal_conversation_fails
    (handle : ToolHandler) (aborted : Bool) (abortReason : String)
    (responses : List (Except String RoundResponse)) (s : ConvState)
    (t : String) (h : s.output = some t) :
    startConv handle aborted abortReason responses s =
      .error (.misuse "Cannot start a conversation that is already complete", s) := by
  simp [startConv, h]

/-- Witness for C9 on a conversation that already produced terminal output. -/
theorem start_on_terminal_conversation_fails_witness :
    startConv (fun _ _ _ => .ok .null) false "r"
      [.ok { output := [.message "again"], outputText := "again" }]
      { history := [.message "done"], output := some "done" } =
      .error (.misuse "Cannot start a conversation that is already complete",
        { history := [.message "done"], output := some "done" }) :=
  start_on_terminal_conversation_fails (fun _ _ _ => .ok .null) false "r"
    [.ok { output := [.message "again"], outputText := "again" }]
    { history := [.message "done"], output := some "done" } "done" rfl

/-- C6: a payload without a temperature parameter is sent exactly once, with
whatever outcome the endpoint gives; a payload with a temperature whose call
is rejected with an unsupported-temperature error is retried exactly once with
the temperature stripped, surfacing the retry's outcome instead of the
rejection; any other rejection propagates unmodified after a single call. -/
theorem temperature_fallback_policy {R : Type}
    (endpoint : ResponsePayload → Except TransportError R)
    (payload : ResponsePayload) :
    (payload.temperature = none →
      createResponseWithTemperatureFallback endpoint payload =
        (endpoint payload, [payload])) ∧
    (∀ e, payload.temperature.isSome = true → endpoint payload = .error e →
      isUnsupportedTemperatureError e = true →
      createResponseWithTemperatureFallback endpoint payload =
        (endpoint (stripTemperature payload),
         [payload, stripTemperature payload])) ∧
    (∀ e, endpoint payload = .error e →
      isUnsupportedTemperatureError e = false →
      createResponseWithTemperatureFallback endpoint payload =
        (.error e, [payload])) := by
  refine ⟨fun h => ?_, fun e hsome herr huns => ?_, fun e herr huns => ?_⟩
  · simp [createResponseWithTemperatureFallback, h]
  · have hnone : payload.temperature.isNone = false := by
      cases htemp : payload.temperature <;> simp_all
    simp [createResponseWithTemperatureFallback, hnone, herr, huns]
  · cases htemp : payload.temperature with
    | none => simp [createResponseWithTemperatureFallback, htemp, herr]
    | some t =>
      have hnone : payload.temperature.isNone = false := by simp [htemp]
      simp [createResponseWithTemperatureFallback, hnone, herr, huns]

/-- Endpoint used by the C6 witness: rejects any payload carrying a
temperature with a 400 unsupported-temperature error, accepts otherwise. -/
def tempRejectingEndpoint : ResponsePayload → Except TransportError Nat :=
  fun p =>
    match p.temperature with
    | some _ =>
      .error { isErrorInstance := true,
               message := "Unsupported value: temperature is not supported with this model",
               status := some 400 }
    | none => .ok 7

/-- Witness for C6: the rejected first call is followed by exactly one retry
with the temperature stripped, whose success is surfaced. -/
theorem temperature_fallback_policy_witness :
    createResponseWithTemperatureFallback tempRejectingEndpoint
      { model := "gpt-5", temperature := some 1 } =
      (.ok 7, [{ model := "gpt-5", temperature := some 1 },
               { model := "gpt-5", temperature := none }]) := by
  have h := (temperature_fallback_policy tempRejectingEndpoint
      { model := "gpt-5", temperature := some 1 }).2.1
    { isErrorInstance := true,
      message := "Unsupported value: temperature is not supported with this model",
      status := some 400 }
    rfl rfl (by decide)
  simpa [tempRejectingEndpoint, stripTemperature] using h

/-- Helper for C7: a run whose first attempts all fail, followed by a valid
attempt within the budget, returns the valid attempt's artifact and one
injected diagnostic per failed attempt. -/
theorem runRetryLoop_success (a : Pipeline) (rest : List AttemptOutcome) :
    ∀ (fs : List AttemptOutcome) (n : Nat) (hist : List RetryDiagnostic),
    (∀ o ∈ fs, isFailure o = true) → fs.length < n →
    (runRetryLoop n (fs ++ .valid a :: rest) hist).artifact = some a ∧
    (runRetryLoop n (fs ++ .valid a :: rest) hist).history.length =
      hist.length + fs.length := by
  intro fs
  induction fs with
  | nil =>
    intro n hist _ hlt
    match n, hlt with
    | m + 1, _ => simp [runRetryLoop]
  | cons f fs ih =>
    intro n hist hfail hlt
    match n, hlt with
    | m + 1, hlt =>
      have hf : isFailure f = true := hfail f (List.mem_cons_self f fs)
      have hfs : ∀ o ∈ fs, isFailure o = true :=
        fun o ho => hfail o (List.mem_cons_of_mem f ho)
      have hm : fs.length < m := by
        simpa [Nat.succ_lt_succ_iff] using hlt
      cases f with
      | valid p => simp [isFailure] at hf
      | parseFailure =>
        have := ih m (hist ++ [.parseError]) hfs hm
        simpa [runRetryLoop, diagnosticFor, Nat.add_assoc, Nat.add_comm 1]
          using this
      | validationFailure errs =>
        have := ih m (hist ++ [.validationError errs]) hfs hm
        simpa [runRetryLoop, diagnosticFor, Nat.add_assoc, Nat.add_comm 1]
          using this
      | compileFailure errs =>
        have := ih m (hist ++ [.compileError errs]) hfs hm
        simpa [runRetryLoop, diagnosticFor, Nat.add_assoc, Nat.add_comm 1]
          using this

/-- Helper for C7: once the attempt budget is spent on failures, the loop
returns no artifact regardless of what follows. -/
theorem runRetryLoop_exhausted (tail : List AttemptOutcome) :
    ∀ (n : Nat) (fs : List AttemptOutcome) (hist : List RetryDiagnostic),
    (∀ o ∈ fs, isFailure o = true) → n ≤ fs.length →
    (runRetryLoop n (fs ++ tail) hist).artifact = none := by
  intro n
  induction n with
  | zero => intro fs hist _ _; cases fs <;> simp [runRetryLoop]
  | succ m ih =>
    intro fs hist hfail hle
    match fs, hle with
    | f :: fs, hle =>
      have hf : isFailure f = true := hfail f (List.mem_cons_self f fs)
      have hfs : ∀ o ∈ fs, isFailure o = true :=
        fun o ho => hfail o (List.mem_cons_of_mem f ho)
      have hm : m ≤ fs.length := by
        simpa [Nat.succ_le_succ_iff] using hle
      cases f with
      | valid p => simp [isFailure] at hf
      | parseFailure => simpa [runRetryLoop, diagnosticFor] using ih fs _ hfs hm
      | validationFailure errs =>
        simpa [runRetryLoop, diagnosticFor] using ih fs _ hfs hm
      | compileFailure errs =>
        simpa [runRetryLoop, diagnosticFor] using ih fs _ hfs hm

/-- C7: given N consecutive failing terminal outputs followed by one valid
output, the retry-until-valid workflow succeeds on attempt N+1 — returning the
compiled artifact together with the history, which gained one injected
diagnostic per failure — exactly when N is below the retry ceiling; otherwise
it terminates without throwing, returning the history with no artifact. -/
theorem retryUntilValid_succeeds_iff_below_ceiling (ceiling : Nat)
    (fs : List AttemptOutcome) (a : Pipeline) (rest : List AttemptOutcome)
    (hfail : ∀ o ∈ fs, isFailure o = true) :
    ((retryUntilValid ceiling (fs ++ .valid a :: rest)).artifact = some a ↔
      fs.length < ceiling) ∧
    (fs.length < ceiling →
      (retryUntilValid ceiling (fs ++ .valid a :: rest)).history.length =
        fs.length) ∧
    (ceiling ≤ fs.length →
      (retryUntilValid ceiling (fs ++ .valid a :: rest)).artifact = none) := by
  refine ⟨⟨fun hsome => ?_, fun hlt => ?_⟩, fun hlt => ?_, fun hle => ?_⟩
  · by_contra hge
    have hle : ceiling ≤ fs.length := Nat.le_of_not_lt hge
    have := runRetryLoop_exhausted (.valid a :: rest) ceiling fs [] hfail hle
    rw [retryUntilValid] at hsome
    rw [this] at hsome
    exact Option.noConfusion hsome
  · exact (runRetryLoop_success a rest fs ceiling [] hfail hlt).1
  · simpa using (runRetryLoop_success a rest fs ceiling [] hfail hlt).2
  · exact runRetryLoop_exhausted (.valid a :: rest) ceiling fs [] hfail hle

/-- Witness for C7 with two failures, a ceiling of three, and a valid third
attempt. -/
theorem retryUntilValid_succeeds_iff_below_ceiling_witness :
    ((retryUntilValid 3
      ([.parseFailure, .compileFailure []] ++ .valid ⟨.null⟩ :: [])).artifact =
        some ⟨.null⟩ ↔ 2 < 3) ∧
    (2 < 3 →
      (retryUntilValid 3
        ([.parseFailure, .compileFailure []] ++ .valid ⟨.null⟩ :: [])).history.length = 2) ∧
    (3 ≤ 2 →
      (retryUntilValid 3
        ([.parseFailure, .compileFailure []] ++ .valid ⟨.null⟩ :: [])).artifact = none) := by
  have h := retryUntilValid_succeeds_iff_below_ceiling 3
    [.parseFailure, .compileFailure []] ⟨.null⟩ []
    (by intro o ho; fin_cases ho <;> rfl)
  simpa using h

/-- Relation between one model response's items and the segment the loop
appends to history: items are consumed in order; a function-call item is
immediately followed by its result item, carrying the same call id; the first
plain message item is appended and ends the response (any remaining items are
dropped); every other item is appended verbatim. -/
inductive RoundExpansion : List HistoryItem → List HistoryItem → Prop where
  | nil : RoundExpansion [] []
  | call {name callId args out : String} {rest app : List HistoryItem} :
      RoundExpansion rest app →
      RoundExpansion (.functionCall name callId args :: rest)
        (.functionCall name callId args ::
          .functionCallOutput callId out :: app)
  | msg {t : String} {rest : List HistoryItem} :
      RoundExpansion (.message t :: rest) [.message t]
  | passthrough {item : HistoryItem} {rest app : List HistoryItem} :
      (∀ n c a, item ≠ .functionCall n c a) → (∀ t, item ≠ .message t) →
      RoundExpansion rest app → RoundExpansion (item :: rest) (item :: app)

/-- Core behavior of the per-response loop: processing only appends to the
history — one observer notification per append — and the appended segment is a
`RoundExpansion` of the response's items. -/
theorem processItems_expansion (handle : ToolHandler) :
    ∀ (items : List HistoryItem) (outputText : String) (s : ConvState),
    ∃ app, RoundExpansion items app ∧
      (processItems handle items outputText s).1.history = s.history ++ app ∧
      (processItems handle items outputText s).1.notifications =
        s.notifications + app.length := by
  intro items
  induction items with
  | nil =>
    intro t s
    exact ⟨[], .nil, by simp [processItems], by simp [processItems]⟩
  | cons item rest ih =>
    intro t s
    cases item with
    | input role content =>
      obtain ⟨app, hexp, hh, hn⟩ := ih t (pushMessage s (.input role content))
      refine ⟨.input role content :: app,
        .passthrough (by simp) (by simp) hexp, ?_, ?_⟩
      · simp only [processItems]
        rw [hh]
        simp [pushMessage]
      · simp only [processItems]
        rw [hn]
        simp [pushMessage]
        omega
    | functionCall name callId args =>
      cases hr : handle name args (pushMessage s (.functionCall name callId args)).history with
      | ok v =>
        obtain ⟨app, hexp, hh, hn⟩ := ih t
          (pushMessage (pushMessage s (.functionCall name callId args))
            (.functionCallOutput callId (stringifyJson v)))
        refine ⟨.functionCall name callId args ::
          .functionCallOutput callId (stringifyJson v) :: app, .call hexp, ?_, ?_⟩
        · simp only [processItems, hr]
          rw [hh]
          simp [pushMessage]
        · simp only [processItems, hr]
          rw [hn]
          simp [pushMessage]
          omega
      | error e =>
        obtain ⟨app, hexp, hh, hn⟩ := ih t
          (pushMessage (pushMessage s (.functionCall name callId args))
            (.functionCallOutput callId ("Error while executing function: " ++ e)))
        refine ⟨.functionCall name callId args ::
          .functionCallOutput callId ("Error while executing function: " ++ e) :: app,
          .call hexp, ?_, ?_⟩
        · simp only [processItems, hr]
          rw [hh]
          simp [pushMessage]
        · simp only [processItems, hr]
          rw [hn]
          simp [pushMessage]
          omega
    | functionCallOutput callId out =>
      obtain ⟨app, hexp, hh, hn⟩ := ih t (pushMessage s (.functionCallOutput callId out))
      refine ⟨.functionCallOutput callId out :: app,
        .passthrough (by simp) (by simp) hexp, ?_, ?_⟩
      · simp only [processItems]
        rw [hh]
        simp [pushMessage]
      · simp only [processItems]
        rw [hn]
        simp [pushMessage]
        omega
    | message txt =>
      refine ⟨[.message txt], .msg, ?_, ?_⟩
      · simp [processItems, pushMessage]
      · simp [processItems, pushMessage]
    | reasoning id =>
      obtain ⟨app, hexp, hh, hn⟩ := ih t (pushMessage s (.reasoning id))
      refine ⟨.reasoning id :: app,
        .passthrough (by simp) (by simp) hexp, ?_, ?_⟩
      · simp only [processItems]
        rw [hh]
        simp [pushMessage]
      · simp only [processItems]
        rw [hn]
        simp [pushMessage]
        omega

/-- C4: for every tool-call item serviced during a response (i.e. not cut off
by an earlier message item), the history thereafter contains the call item
immediately followed by a result item carrying the same call id — the
serialized value when the caller-supplied handler succeeds, the human-readable
error string when it throws. The handler's exception is absorbed into that
history item: `processItems` is total and has no error channel, so nothing
propagates out of the loop. Stated for the provider's handler shape, which
ignores the history argument. -/
theorem tool_handler_errors_absorbed
    (f : String → String → Except String Json) (pre : List HistoryItem)
    (name callId args : String) (post : List HistoryItem)
    (outputText : String) (s : ConvState)
    (hpre : ∀ t, HistoryItem.message t ∉ pre) :
    ∃ front back,
      (processItems (fun n a _ => f n a)
        (pre ++ .functionCall name callId args :: post) outputText s).1.history =
      front ++ .functionCall name callId args ::
        .functionCallOutput callId
          (match f name args with
           | .ok v => stringifyJson v
           | .error e => "Error while executing function: " ++ e) :: back := by
  revert hpre
  induction pre generalizing s with
  | nil =>
    intro _
    cases hr : f name args with
    | ok v =>
      obtain ⟨app, _, hh, _⟩ := processItems_expansion (fun n a _ => f n a)
        post outputText
        (pushMessage (pushMessage s (.functionCall name callId args))
          (.functionCallOutput callId (stringifyJson v)))
      refine ⟨s.history, app, ?_⟩
      simp only [List.nil_append, processItems, hr]
      rw [hh]
      simp [pushMessage]
    | error e =>
      obtain ⟨app, _, hh, _⟩ := processItems_expansion (fun n a _ => f n a)
        post outputText
        (pushMessage (pushMessage s (.functionCall name callId args))
          (.functionCallOutput callId ("Error while executing function: " ++ e)))
      refine ⟨s.history, app, ?_⟩
      simp only [List.nil_append, processItems, hr]
      rw [hh]
      simp [pushMessage]
  | cons p pre ih =>
    intro hpre
    have hpre' : ∀ t, HistoryItem.message t ∉ pre :=
      fun t ht => hpre t (List.mem_cons_of_mem _ ht)
    cases p with
    | message txt => exact absurd (List.mem_cons_self _ _) (hpre txt)
    | functionCall n₂ c₂ a₂ =>
      cases hr₂ : f n₂ a₂ with
      | ok v =>
        simp only [List.cons_append, processItems, hr₂]
        exact ih _ hpre'
      | error e =>
        simp only [List.cons_append, processItems, hr₂]
        exact ih _ hpre'
    | input role content =>
      simp only [List.cons_append, processItems]
      exact ih _ hpre'
    | functionCallOutput c o =>
      simp only [List.cons_append, processItems]
      exact ih _ hpre'
    | reasoning id =>
      simp only [List.cons_append, processItems]
      exact ih _ hpre'

/-- Handler used by the C4 witness: throws on every call. -/
def failingToolHandler : String → String → Except String Json :=
  fun _ _ => .error "kaput"

/-- Witness for C4: a single serviced tool call whose handler throws yields a
paired error-string result item in history. -/
theorem tool_handler_errors_absorbed_witness :
    ∃ front back,
      (processItems (fun n a _ => failingToolHandler n a)
        ([] ++ .functionCall "goto" "c1" "\x7b\x7d" :: []) ""
        { history := [] }).1.history =
      front ++ HistoryItem.functionCall "goto" "c1" "\x7b\x7d" ::
        HistoryItem.functionCallOutput "c1"
          (match failingToolHandler "goto" "\x7b\x7d" with
           | .ok v => stringifyJson v
           | .error e => "Error while executing function: " ++ e) :: back :=
  tool_handler_errors_absorbed failingToolHandler [] "goto" "c1" "\x7b\x7d"
    [] "" { history := [] } (by simp)

/-- C5 counterexample: a response whose items continue past the first plain
message item does not get every item appended — the trailing tool-call item
here is dropped by the loop's early exit, refuting the claim that every
response item is appended to history. -/
theorem response_item_after_message_dropped :
    HistoryItem.functionCall "goto" "c1" "x" ∈
      [HistoryItem.message "done", HistoryItem.functionCall "goto" "c1" "x"] ∧
    HistoryItem.functionCall "goto" "c1" "x" ∉
      (processItems (fun _ _ _ => .ok .null)
        [HistoryItem.message "done", HistoryItem.functionCall "goto" "c1" "x"]
        "done" { history := [] }).1.history := by
  decide

/-- C5 (amended): for every model response, the loop appends to history, in
order, exactly the response items up to and including the first plain message
item (items after it are dropped), invoking the caller observer once per
append, with each tool-call item immediately followed by its paired result
item (same call id) — hence tool results appear in request order. -/
theorem response_items_appended_in_order (handle : ToolHandler)
    (items : List HistoryItem) (outputText : String) (s : ConvState) :
    ∃ app, RoundExpansion items app ∧
      (processItems handle items outputText s).1.history = s.history ++ app ∧
      (processItems handle items outputText s).1.notifications =
        s.notifications + app.length :=
  processItems_expansion handle items outputText s

/-- Helper for C10: every state built by `buildAgentState` reports `isPaused`
exactly when its snapshot's phase is `paused`, whatever the overrides. -/
theorem buildAgentState_isPaused_iff (cid : String)
    (st : PersistedConversationState) (so : Option String) (co : Option Bool) :
    ((buildAgentState cid st so co).isPaused = true ↔
      (buildAgentState cid st so co).state.phase = .paused) := by
  simp [buildAgentState]

/-- C10: every conversation state the workflow returns has `isPaused` true
exactly when its snapshot's phase is `paused`; and with no completion override
supplied, `isComplete` is true exactly when the phase is `complete` and no
(truthy) paused reason is recorded — an empty-string reason counts as none,
matching the source's JavaScript truthiness test `!state.pausedReason`. -/
theorem returned_state_flags_consistent :
    (∀ (conversationId : String) (state : PersistedConversationState)
       (previousPipeline : Json)
       (controlRequests : List AiAgentControlRequest)
       (agentResult : AgentRunResult) (now : Nat),
      ((executePromptWorkflow conversationId state previousPipeline
          controlRequests agentResult now).result.isPaused = true ↔
        (executePromptWorkflow conversationId state previousPipeline
          controlRequests agentResult now).result.state.phase = .paused)) ∧
    (∀ (conversationId : String) (s : PersistedConversationState)
       (statusOverride : Option String),
      ((buildAgentState conversationId s statusOverride none).isComplete = true ↔
        ((buildAgentState conversationId s statusOverride none).state.phase
            = .complete ∧
          truthyStr (buildAgentState conversationId s statusOverride
            none).state.pausedReason = none))) := by
  constructor
  · intro conversationId state previousPipeline controlRequests agentResult now
    simp only [executePromptWorkflow]
    repeat' split
    all_goals exact buildAgentState_isPaused_iff _ _ _ _
  · intro conversationId s statusOverride
    simp [buildAgentState, Option.isNone_iff_eq_none]

/-- C1: artifact equality via `arePipelinesEqual` is deep and
key-order-independent — well-formed structurally equal JSON values (in
particular objects with the same keys and structurally equal values in any
order) compare equal — and an exchange that emits an artifact structurally
equal to the caller-supplied previous artifact never invokes the
artifact-update callback: only the "Pipeline unchanged" status is reported,
with the snapshot phase still set to `complete`. -/
theorem identical_artifact_suppresses_update
    (a b : Json) (pl : Pipeline) (conversationId : String)
    (state : PersistedConversationState) (agentResult : AgentRunResult)
    (now : Nat)
    (hwa : jsonWf a = true) (hwb : jsonWf b = true) (hab : JsonEquiv a b)
    (hp1 : state.phase ≠ .paused) (hp2 : state.phase ≠ .awaitingUser)
    (hpq : agentResult.pendingQuestion = none)
    (hemit : agentResult.emittedPipeline = some ⟨b, pl⟩) :
    arePipelinesEqual (some a) (some b) = true ∧
    (∀ p, CallbackEvent.pipelineUpdate p ∉
      (executePromptWorkflow conversationId state a [] agentResult now).events) ∧
    CallbackEvent.statusUpdate "Pipeline unchanged" ∈
      (executePromptWorkflow conversationId state a [] agentResult now).events ∧
    (executePromptWorkflow conversationId state a []
      agentResult now).result.state.phase = .complete := by
  have heq : arePipelinesEqual (some a) (some b) = true := by
    simp [arePipelinesEqual, stableHash, normalize_eq_of_equiv hab hwa hwb]
  refine ⟨heq, ?_, ?_, ?_⟩
  · intro p
    cases hod : agentResult.outputData with
    | none =>
      simp [executePromptWorkflow, applyControlRequests, hpq, hemit, hod,
        truthyStr, heq, if_neg hp1, if_neg hp2]
    | some od =>
      simp [executePromptWorkflow, applyControlRequests, hpq, hemit, hod,
        truthyStr, heq, if_neg hp1, if_neg hp2]
  · cases hod : agentResult.outputData with
    | none =>
      simp [executePromptWorkflow, applyControlRequests, hpq, hemit, hod,
        truthyStr, heq, if_neg hp1, if_neg hp2]
    | some od =>
      simp [executePromptWorkflow, applyControlRequests, hpq, hemit, hod,
        truthyStr, heq, if_neg hp1, if_neg hp2]
  · simp [executePromptWorkflow, applyControlRequests, hpq, hemit,
      truthyStr, heq, if_neg hp1, if_neg hp2, buildAgentState]

/-- Witness for C1 at the spec's example: previous artifact
`\x7ba:1,b:2\x7d`, emitted artifact `\x7bb:2,a:1\x7d` — equal under
`arePipelinesEqual`, no pipeline-update callback, an "unchanged" status, and a
`complete` phase. -/
theorem identical_artifact_suppresses_update_witness :
    arePipelinesEqual (some (.obj [("a", .num 1), ("b", .num 2)]))
      (some (.obj [("b", .num 2), ("a", .num 1)])) = true ∧
    (∀ p, CallbackEvent.pipelineUpdate p ∉
      (executePromptWorkflow "c" (createInitialState "go")
        (.obj [("a", .num 1), ("b", .num 2)]) []
        { emittedPipeline :=
            some ⟨.obj [("b", .num 2), ("a", .num 1)], ⟨.null⟩⟩ } 0).events) ∧
    CallbackEvent.statusUpdate "Pipeline unchanged" ∈
      (executePromptWorkflow "c" (createInitialState "go")
        (.obj [("a", .num 1), ("b", .num 2)]) []
        { emittedPipeline :=
            some ⟨.obj [("b", .num 2), ("a", .num 1)], ⟨.null⟩⟩ } 0).events ∧
    (executePromptWorkflow "c" (createInitialState "go")
      (.obj [("a", .num 1), ("b", .num 2)]) []
      { emittedPipeline :=
          some ⟨.obj [("b", .num 2), ("a", .num 1)], ⟨.null⟩⟩ }
      0).result.state.phase = .complete :=
  identical_artifact_suppresses_update
    (.obj [("a", .num 1), ("b", .num 2)]) (.obj [("b", .num 2), ("a", .num 1)])
    ⟨.null⟩ "c" (createInitialState "go")
    { emittedPipeline := some ⟨.obj [("b", .num 2), ("a", .num 1)], ⟨.null⟩⟩ } 0
    rfl rfl
    (@JsonEquiv.objCons "a" (.num 1) (.num 1) [("b", .num 2)] [("b", .num 2)] []
      (JsonEquiv.num 1)
      (@JsonEquiv.objCons "b" (.num 2) (.num 2) [] [] [] (JsonEquiv.num 2)
        JsonEquiv.objNil))
    (by decide) (by decide) rfl rfl
